import Mathlib

/-
  Shallow embedding of QuantLib JumpDiffusionEngine::calculate
  (ql/PricingEngines/Vanilla/jumpdiffusionengine.cpp, Merton 1976 engine).

  Modelling conventions:
  - C++ doubles are modelled by exact reals; QL_EXP, QL_LOG, QL_SQRT become
    Real.exp, Real.log, Real.sqrt.
  - External collaborators (term structures, day counter, Poisson weight
    source, the base diffusion engine) are out of src/; they are collapsed
    to the scalar readings calculate takes from them, modelled from the
    spec where noted.
  - The base engine is a function of the flat rate and flat volatility
    handed to it each iteration (the flat curves are fully determined by
    those two scalars plus the fixed reference date and day counter).
-/

namespace QuantLibJD

/-- Output fields of a vanilla pricing engine: value and the Greeks,
mirroring VanillaOption::results as used by calculate. -/
structure Greeks where
  value : ℝ
  delta : ℝ
  gamma : ℝ
  theta : ℝ
  vega : ℝ
  rho : ℝ
  dividendRho : ℝ

/-- The all-zero result record, matching the zero initialisation of
results_ in calculate. -/
def zeroGreeks : Greeks :=
  { value := 0, delta := 0, gamma := 0, theta := 0, vega := 0, rho := 0,
    dividendRho := 0 }

/-- Scalar readings calculate takes from the Merton76 process and its
collaborator curves. Modelled from the spec: the volatility surface,
day counter and discount curve are external collaborators, so only the
values calculate actually reads are kept: blackVariance at the exercise
date (dummy strike 1.0), the year fraction from the surface reference
date to the exercise date, and the discount factor to the exercise
date. -/
structure Merton76Data where
  logJumpMean : ℝ
  logJumpVolatility : ℝ
  jumpIntensity : ℝ
  varianceAtExercise : ℝ
  timeToExercise : ℝ
  discountAtExercise : ℝ

/-- The process handed to the engine: the downcast in calculate either
yields the Merton76 view or null. A process without the jump-diffusion
capability carries no data the engine can use. -/
inductive StochasticProcess where
  | blackScholes : StochasticProcess
  | merton76 : Merton76Data → StochasticProcess

/-- Failure outcomes of calculate: the QL_REQUIRE on the downcast, the
fail-fast on a non-positive time to exercise (raised by the collaborator
reads, modelled from the spec), and the QL_ENSURE after the loop, whose
message carries the iteration count, the requested tolerance, the last
contribution and the running price. -/
inductive EngineError where
  | notJumpDiffusion : EngineError
  | nonPositiveTime : EngineError
  | accuracyNotReached : ℕ → ℝ → ℝ → ℝ → EngineError

/-- The base diffusion engine, as calculate uses it: a map from the flat
risk-free rate and flat volatility of the current scenario to the
results it reports. -/
abbrev SubEngine := ℝ → ℝ → Greeks

/-- jumpSquareVol = logJumpVolatility * logJumpVolatility (source line 51). -/
def jumpSquareVol (d : Merton76Data) : ℝ :=
  d.logJumpVolatility * d.logJumpVolatility

/-- muPlusHalfSquareVol = logJumpMean + 0.5 * jumpSquareVol (source line 53). -/
noncomputable def muPlusHalfSquareVol (d : Merton76Data) : ℝ :=
  d.logJumpMean + 0.5 * jumpSquareVol d

/-- Mean jump size k = exp(muPlusHalfSquareVol) - 1 (source line 56). -/
noncomputable def k (d : Merton76Data) : ℝ :=
  Real.exp (muPlusHalfSquareVol d) - 1

/-- Effective intensity lambda = (k + 1) * jumpIntensity (source line 57). -/
noncomputable def lambda (d : Merton76Data) : ℝ :=
  (k d + 1) * d.jumpIntensity

/-- riskFreeRate = -log(discount(exercise)) / t (source line 66). -/
noncomputable def riskFreeRate (d : Merton76Data) : ℝ :=
  -Real.log d.discountAtExercise / d.timeToExercise

/-- Modelled from the spec: the discrete probability weight source
(ql/Math/poissondistribution.hpp is not in src/) returns P(X = i) for a
Poisson-distributed X with the given mean. -/
noncomputable def poissonPMF (mean : ℝ) (i : ℕ) : ℝ :=
  Real.exp (-mean) * mean ^ i / (Nat.factorial i : ℝ)

/-- Flat volatility of scenario i: v = sqrt((variance + i*jumpSquareVol)/t)
(source line 109). -/
noncomputable def scenarioVol (d : Merton76Data) (i : ℕ) : ℝ :=
  Real.sqrt ((d.varianceAtExercise + (i : ℝ) * jumpSquareVol d) / d.timeToExercise)

/-- Flat rate of scenario i:
r = riskFreeRate - jumpIntensity*k + i*muPlusHalfSquareVol/t
(source lines 110-111). -/
noncomputable def scenarioRate (d : Merton76Data) (i : ℕ) : ℝ :=
  riskFreeRate d - d.jumpIntensity * k d
    + (i : ℝ) * muPlusHalfSquareVol d / d.timeToExercise

/-- One weighted accumulation step: results.field += weight * base.field
for the seven output fields (source lines 126-133). -/
def addWeighted (acc : Greeks) (weight : ℝ) (base : Greeks) : Greeks :=
  { value := acc.value + weight * base.value
    delta := acc.delta + weight * base.delta
    gamma := acc.gamma + weight * base.gamma
    theta := acc.theta + weight * base.theta
    vega := acc.vega + weight * base.vega
    rho := acc.rho + weight * base.rho
    dividendRho := acc.dividendRho + weight * base.dividendRho }

/-- State of the mixture loop: the accumulators, the running
lastContribution, the iteration counter i and, for bookkeeping, the list
of (rate, vol) pairs handed to the base engine so far. -/
structure LoopState where
  results : Greeks
  lastContribution : ℝ
  iters : ℕ
  trace : List (ℝ × ℝ)

/-- State on entry to the loop: zero accumulators, lastContribution
sentinel 1.0, i = 0, no base-engine call yet (source lines 92-103). -/
def initState : LoopState :=
  { results := zeroGreeks, lastContribution := 1, iters := 0, trace := [] }

/-- One iteration of the loop body (source lines 108-135): build the
scenario rate and volatility, run the base engine on them, weight its
results by the Poisson mass at i, accumulate, and recompute
lastContribution = weight * base.value / results.value with the updated
running value. -/
noncomputable def loopBody (sub : SubEngine) (d : Merton76Data)
    (st : LoopState) : LoopState :=
  let v := scenarioVol d st.iters
  let r := scenarioRate d st.iters
  let base := sub r v
  let weight := poissonPMF (lambda d * d.timeToExercise) st.iters
  let results := addWeighted st.results weight base
  { results := results
    lastContribution := weight * base.value / results.value
    iters := st.iters + 1
    trace := st.trace ++ [(r, v)] }

/-- The for loop of calculate, fuelled: run the body while
lastContribution > relativeAccuracy and i < maxIterations
(source lines 104-106). -/
noncomputable def loopGo (sub : SubEngine) (d : Merton76Data)
    (relativeAccuracy : ℝ) (maxIterations : ℕ) :
    ℕ → LoopState → LoopState
  | 0, st => st
  | fuel + 1, st =>
    if relativeAccuracy < st.lastContribution ∧ st.iters < maxIterations then
      loopGo sub d relativeAccuracy maxIterations fuel (loopBody sub d st)
    else st

/-- The loop as calculate runs it: from the initial state, with enough
fuel that the guard, not the fuel, ends it. -/
noncomputable def runLoop (sub : SubEngine) (d : Merton76Data)
    (relativeAccuracy : ℝ) (maxIterations : ℕ) : LoopState :=
  loopGo sub d relativeAccuracy maxIterations (maxIterations + 1) initState

/-- The state after exactly n executions of the loop body, guard aside. -/
noncomputable def stepN (sub : SubEngine) (d : Merton76Data) : ℕ → LoopState
  | 0 => initState
  | n + 1 => loopBody sub d (stepN sub d n)

/-- JumpDiffusionEngine::calculate. The downcast check is the QL_REQUIRE
at source line 49; the non-positive-time fail-fast is modelled from the
spec (the collaborator that reads variance and t off the volatility
surface fails fast when t is not positive, before t is used as a
divisor); the final test i < maxIterations is the QL_ENSURE at source
lines 137-147, with the values its message carries. -/
noncomputable def calculate (sub : SubEngine) (relativeAccuracy : ℝ)
    (maxIterations : ℕ) : StochasticProcess → Except EngineError Greeks
  | .blackScholes => .error .notJumpDiffusion
  | .merton76 d =>
    if d.timeToExercise ≤ 0 then .error .nonPositiveTime
    else
      let final := runLoop sub d relativeAccuracy maxIterations
      if final.iters < maxIterations then .ok final.results
      else .error (.accuracyNotReached final.iters relativeAccuracy
        final.lastContribution final.results.value)

/-- The iteration counter counts body executions. -/
lemma stepN_iters (sub : SubEngine) (d : Merton76Data) :
    ∀ n, (stepN sub d n).iters = n
  | 0 => rfl
  | n + 1 => by simp [stepN, loopBody, stepN_iters sub d n]

/-- The base engine is handed exactly the scenario rate and volatility of
indices 0, 1, ..., n-1, in order. -/
lemma stepN_trace (sub : SubEngine) (d : Merton76Data) :
    ∀ n, (stepN sub d n).trace =
      (List.range n).map (fun i => (scenarioRate d i, scenarioVol d i))
  | 0 => rfl
  | n + 1 => by
    simp [stepN, loopBody, stepN_trace sub d n, stepN_iters sub d n,
      List.range_succ]

/-- Any output field that accumulates affinely is, after n iterations, the
weighted sum of the base-engine outputs of scenarios 0..n-1. -/
lemma stepN_field (f : Greeks → ℝ)
    (hf : ∀ a w b, f (addWeighted a w b) = f a + w * f b)
    (hz : f zeroGreeks = 0) (sub : SubEngine) (d : Merton76Data) :
    ∀ n, f (stepN sub d n).results =
      ∑ j ∈ Finset.range n, poissonPMF (lambda d * d.timeToExercise) j *
        f (sub (scenarioRate d j) (scenarioVol d j))
  | 0 => by simpa [stepN, initState] using hz
  | n + 1 => by
    have ih := stepN_field f hf hz sub d n
    simp only [stepN, loopBody, Finset.sum_range_succ, stepN_iters sub d n]
    rw [hf, ih]

/-- Running the guarded loop from the state after n iterations lands on
the state after m iterations for some m between n and maxIterations, the
guard having held at each state strictly before m and, when the cap was
not hit, having failed at m. -/
lemma loopGo_from (sub : SubEngine) (d : Merton76Data)
    (relativeAccuracy : ℝ) (maxIterations : ℕ) :
    ∀ fuel n, n ≤ maxIterations → maxIterations ≤ n + fuel →
    ∃ m, n ≤ m ∧ m ≤ maxIterations ∧
      loopGo sub d relativeAccuracy maxIterations fuel (stepN sub d n) =
        stepN sub d m ∧
      (∀ j, n ≤ j → j < m →
        relativeAccuracy < (stepN sub d j).lastContribution) ∧
      (m < maxIterations →
        (stepN sub d m).lastContribution ≤ relativeAccuracy) := by
  intro fuel
  induction fuel with
  | zero =>
    intro n hn hfuel
    have hnm : n = maxIterations := le_antisymm hn (by simpa using hfuel)
    exact ⟨n, le_refl n, hn, rfl, fun j h1 h2 => absurd h1 (by omega),
      fun h => absurd h (by omega)⟩
  | succ fuel ih =>
    intro n hn hfuel
    by_cases h : relativeAccuracy < (stepN sub d n).lastContribution ∧
        (stepN sub d n).iters < maxIterations
    · have hlt : n < maxIterations := by
        have := h.2
        rwa [stepN_iters sub d n] at this
      obtain ⟨m, hm1, hm2, hm3, hm4, hm5⟩ :=
        ih (n + 1) (by omega) (by omega)
      refine ⟨m, by omega, hm2, ?_, ?_, hm5⟩
      · rw [loopGo, if_pos h]
        exact hm3
      · intro j hj1 hj2
        rcases Nat.eq_or_lt_of_le hj1 with hj | hj
        · rw [← hj]; exact h.1
        · exact hm4 j hj hj2
    · refine ⟨n, le_refl n, hn, by rw [loopGo, if_neg h],
        fun j h1 h2 => absurd h1 (by omega), ?_⟩
      intro hlt
      rcases not_and_or.mp h with h1 | h2
      · exact le_of_not_lt h1
      · exact absurd (by rwa [stepN_iters sub d n]) h2

/-- The loop as run by calculate: it stops after m ≤ maxIterations
iterations, the first m at which either the contribution test passes or
the cap is hit. -/
lemma runLoop_spec (sub : SubEngine) (d : Merton76Data)
    (relativeAccuracy : ℝ) (maxIterations : ℕ) :
    ∃ m, m ≤ maxIterations ∧
      runLoop sub d relativeAccuracy maxIterations = stepN sub d m ∧
      (∀ j, j < m →
        relativeAccuracy < (stepN sub d j).lastContribution) ∧
      (m < maxIterations →
        (stepN sub d m).lastContribution ≤ relativeAccuracy) := by
  obtain ⟨m, _, hm2, hm3, hm4, hm5⟩ := loopGo_from sub d relativeAccuracy
    maxIterations (maxIterations + 1) 0 (Nat.zero_le _) (by omega)
  exact ⟨m, hm2, hm3, fun j hj => hm4 j (Nat.zero_le _) hj, hm5⟩

/-- Accumulating with weight 1 onto zero accumulators yields the base
results unchanged. -/
lemma addWeighted_one_zero (g : Greeks) : addWeighted zeroGreeks 1 g = g := by
  cases g
  simp [addWeighted, zeroGreeks]

/-- Accumulating with weight 0 leaves the accumulators unchanged. -/
lemma addWeighted_weight_zero (g h : Greeks) : addWeighted g 0 h = g := by
  cases g
  simp [addWeighted]

/-- Accumulating a zero base record leaves the accumulators unchanged. -/
lemma addWeighted_base_zero (g : Greeks) (w : ℝ) :
    addWeighted g w zeroGreeks = g := by
  cases g
  simp [addWeighted, zeroGreeks]

/-- Running value after one more iteration, unfolded. -/
lemma loopBody_value (sub : SubEngine) (d : Merton76Data) (st : LoopState) :
    (loopBody sub d st).results.value = st.results.value +
      poissonPMF (lambda d * d.timeToExercise) st.iters *
        (sub (scenarioRate d st.iters) (scenarioVol d st.iters)).value := rfl

/-- lastContribution after one more iteration, unfolded. -/
lemma loopBody_last (sub : SubEngine) (d : Merton76Data) (st : LoopState) :
    (loopBody sub d st).lastContribution =
      poissonPMF (lambda d * d.timeToExercise) st.iters *
        (sub (scenarioRate d st.iters) (scenarioVol d st.iters)).value /
      (st.results.value + poissonPMF (lambda d * d.timeToExercise) st.iters *
        (sub (scenarioRate d st.iters) (scenarioVol d st.iters)).value) := rfl

/-- What calculate returns once the loop outcome is known: the QL_ENSURE
test i < maxIterations decides between the accumulated results and the
accuracy error carrying i, the tolerance, the last contribution and the
running price. -/
lemma calculate_of_pos (sub : SubEngine) (d : Merton76Data)
    (relativeAccuracy : ℝ) (maxIterations : ℕ) (ht : 0 < d.timeToExercise)
    (m : ℕ)
    (hrun : runLoop sub d relativeAccuracy maxIterations = stepN sub d m) :
    calculate sub relativeAccuracy maxIterations (.merton76 d) =
      if m < maxIterations then .ok (stepN sub d m).results
      else .error (.accuracyNotReached m relativeAccuracy
        (stepN sub d m).lastContribution (stepN sub d m).results.value) := by
  simp only [calculate, hrun, stepN_iters, if_neg (not_le.mpr ht)]

/-- A base engine that reports value 1 and zero Greeks whatever flat
curves it is given. -/
def subOne : SubEngine := fun _ _ =>
  { value := 1, delta := 0, gamma := 0, theta := 0, vega := 0, rho := 0,
    dividendRho := 0 }

/-- A base engine that reports all-zero results. -/
def subZero : SubEngine := fun _ _ => zeroGreeks

/-- Concrete process readings: no jump drift or jump volatility, unit
intensity, unit variance, one year to exercise, discount factor 1. -/
def dataA : Merton76Data :=
  { logJumpMean := 0, logJumpVolatility := 0, jumpIntensity := 1,
    varianceAtExercise := 1, timeToExercise := 1, discountAtExercise := 1 }

/-- Same readings as dataA but with a negative variance reading. -/
def dataB : Merton76Data :=
  { logJumpMean := 0, logJumpVolatility := 0, jumpIntensity := 1,
    varianceAtExercise := -2, timeToExercise := 1, discountAtExercise := 1 }

/-- Same readings as dataA but with zero jump intensity. -/
def dataC : Merton76Data :=
  { logJumpMean := 0, logJumpVolatility := 0, jumpIntensity := 0,
    varianceAtExercise := 1, timeToExercise := 1, discountAtExercise := 1 }

/-- Same readings as dataA but with zero time to exercise. -/
def dataT0 : Merton76Data :=
  { logJumpMean := 0, logJumpVolatility := 0, jumpIntensity := 1,
    varianceAtExercise := 1, timeToExercise := 0, discountAtExercise := 1 }

/-- With zero jump log-mean and log-volatility, unit intensity and unit
time, the Poisson mean lambda * t is 1. -/
lemma dataA_mean : lambda dataA * dataA.timeToExercise = 1 := by
  norm_num [lambda, k, muPlusHalfSquareVol, jumpSquareVol, dataA,
    Real.exp_zero]

/-- Same Poisson mean for the negative-variance readings. -/
lemma dataB_mean : lambda dataB * dataB.timeToExercise = 1 := by
  norm_num [lambda, k, muPlusHalfSquareVol, jumpSquareVol, dataB,
    Real.exp_zero]

/-- Poisson mass at 0 for mean 1. -/
lemma pmfOne_zero : poissonPMF 1 0 = Real.exp (-1) := by
  norm_num [poissonPMF]

/-- Poisson mass at 1 for mean 1. -/
lemma pmfOne_one : poissonPMF 1 1 = Real.exp (-1) := by
  norm_num [poissonPMF, Nat.factorial]

/-- With a constant-value-1 base engine and Poisson mean 1:
the facts about the first two loop iterations the claims need. -/
lemma stepOne_facts (d : Merton76Data)
    (hmean : lambda d * d.timeToExercise = 1) :
    (stepN subOne d 1).results.value = Real.exp (-1) ∧
    (stepN subOne d 1).lastContribution = 1 ∧
    (stepN subOne d 2).results.value = 2 * Real.exp (-1) ∧
    (stepN subOne d 2).lastContribution = 1 / 2 := by
  have h1 : stepN subOne d 1 = loopBody subOne d (stepN subOne d 0) := rfl
  have h2 : stepN subOne d 2 = loopBody subOne d (stepN subOne d 1) := rfl
  have hv1 : (stepN subOne d 1).results.value = Real.exp (-1) := by
    rw [h1, loopBody_value]
    simp [stepN, initState, zeroGreeks, subOne, hmean, pmfOne_zero]
  have hl1 : (stepN subOne d 1).lastContribution = 1 := by
    rw [h1, loopBody_last]
    simp [stepN, initState, zeroGreeks, subOne, hmean, pmfOne_zero,
      Real.exp_ne_zero]
  have hv2 : (stepN subOne d 2).results.value = 2 * Real.exp (-1) := by
    rw [h2, loopBody_value, hv1]
    simp [stepN_iters, subOne, hmean, pmfOne_one]
    ring
  have hl2 : (stepN subOne d 2).lastContribution = 1 / 2 := by
    rw [h2, loopBody_last, hv1]
    simp only [stepN_iters, subOne, hmean, pmfOne_one, mul_one]
    rw [div_eq_iff (by positivity)]
    ring
  exact ⟨hv1, hl1, hv2, hl2⟩

/-- C6: a process without the jump-diffusion capability makes calculate
fail with the "not a jump diffusion process" error, whatever base engine,
tolerance or cap are configured (so before any base-engine call or
accumulation); a process exposing the capability never raises that
error. -/
theorem jd_c6_capability_check (sub : SubEngine) (relativeAccuracy : ℝ)
    (maxIterations : ℕ) (d : Merton76Data) :
    calculate sub relativeAccuracy maxIterations .blackScholes =
      .error .notJumpDiffusion ∧
    calculate sub relativeAccuracy maxIterations (.merton76 d) ≠
      .error .notJumpDiffusion := by
  refine ⟨rfl, ?_⟩
  simp only [calculate]
  by_cases ht : d.timeToExercise ≤ 0
  · rw [if_pos ht]
    simp
  · rw [if_neg ht]
    by_cases hi : (runLoop sub d relativeAccuracy maxIterations).iters <
        maxIterations
    · rw [if_pos hi]
      simp
    · rw [if_neg hi]
      simp

/-- C7: when the year fraction to the exercise date is not positive, the
parameter extraction fails fast with the modelled collaborator error, for
every base engine, tolerance and cap, so before t divides anything and
before any scenario is priced. -/
theorem jd_c7_fail_fast_nonpositive_time (sub : SubEngine)
    (relativeAccuracy : ℝ) (maxIterations : ℕ) (d : Merton76Data)
    (ht : d.timeToExercise ≤ 0) :
    calculate sub relativeAccuracy maxIterations (.merton76 d) =
      .error .nonPositiveTime := by
  simp only [calculate, if_pos ht]

/-- Witness for C7 at a concrete zero time to exercise. -/
theorem jd_c7_fail_fast_nonpositive_time_witness :
    dataT0.timeToExercise ≤ 0 ∧
    calculate subOne (1 / 2) 5 (.merton76 dataT0) =
      .error .nonPositiveTime :=
  ⟨by norm_num [dataT0],
    jd_c7_fail_fast_nonpositive_time subOne (1 / 2) 5 dataT0
      (by norm_num [dataT0])⟩

/-- C9: the mixture loop performs at most maxIterations iterations, the
base engine is invoked at most maxIterations times, and calculate always
ends in either a result or an error. -/
theorem jd_c9_bounded_iterations (sub : SubEngine) (d : Merton76Data)
    (relativeAccuracy : ℝ) (maxIterations : ℕ) (p : StochasticProcess) :
    (runLoop sub d relativeAccuracy maxIterations).iters ≤ maxIterations ∧
    (runLoop sub d relativeAccuracy maxIterations).trace.length ≤
      maxIterations ∧
    ((∃ g, calculate sub relativeAccuracy maxIterations p = .ok g) ∨
      (∃ e, calculate sub relativeAccuracy maxIterations p = .error e)) := by
  obtain ⟨m, hm1, hm2, -, -⟩ := runLoop_spec sub d relativeAccuracy
    maxIterations
  refine ⟨?_, ?_, ?_⟩
  · rw [hm2, stepN_iters]
    exact hm1
  · rw [hm2, stepN_trace]
    simpa using hm1
  · cases h : calculate sub relativeAccuracy maxIterations p with
    | ok g => exact .inl ⟨g, rfl⟩
    | error e => exact .inr ⟨e, rfl⟩

/-- C10: when the tolerance is at least the 1.0 sentinel and the cap is
positive, the loop body never runs, the base engine is never invoked,
and calculate succeeds with all result fields zero. -/
theorem jd_c10_immediate_stop (sub : SubEngine) (d : Merton76Data)
    (relativeAccuracy : ℝ) (maxIterations : ℕ)
    (hacc : 1 ≤ relativeAccuracy) (hmax : 0 < maxIterations)
    (ht : 0 < d.timeToExercise) :
    calculate sub relativeAccuracy maxIterations (.merton76 d) =
      .ok zeroGreeks ∧
    (runLoop sub d relativeAccuracy maxIterations).trace = [] := by
  have hguard : ¬(relativeAccuracy < initState.lastContribution ∧
      initState.iters < maxIterations) := by
    intro h
    have h1 : relativeAccuracy < 1 := by simpa [initState] using h.1
    exact absurd h1 (not_lt.mpr hacc)
  have hrun : runLoop sub d relativeAccuracy maxIterations = initState := by
    rw [runLoop, loopGo, if_neg hguard]
  constructor
  · have hc := calculate_of_pos sub d relativeAccuracy maxIterations ht 0 hrun
    rw [hc, if_pos hmax]
    rfl
  · rw [hrun]
    rfl

/-- Witness for C10 at tolerance 1 and cap 1. -/
theorem jd_c10_immediate_stop_witness :
    (1 : ℝ) ≤ 1 ∧ 0 < 1 ∧ (0 : ℝ) < dataA.timeToExercise ∧
    (calculate subOne 1 1 (.merton76 dataA) = .ok zeroGreeks ∧
      (runLoop subOne dataA 1 1).trace = []) :=
  ⟨le_refl 1, Nat.one_pos, by norm_num [dataA],
    jd_c10_immediate_stop subOne dataA 1 1 (le_refl 1) Nat.one_pos
      (by norm_num [dataA])⟩

/-- C1 counterexample: with tolerance 3/5, cap 2, a constant-value-1 base
engine and Poisson mean 1, the contribution after iteration 0 is 1 (above
tolerance) and after iteration 1 it is 1/2 (tolerance first satisfied at
the last permitted iteration), yet calculate fails with the accuracy
error instead of succeeding as the claim states. -/
theorem jd_c1_counterexample :
    (3 / 5 : ℝ) < (stepN subOne dataA 1).lastContribution ∧
    (stepN subOne dataA 2).lastContribution ≤ 3 / 5 ∧
    calculate subOne (3 / 5) 2 (.merton76 dataA) =
      .error (.accuracyNotReached 2 (3 / 5) (1 / 2)
        (2 * Real.exp (-1))) := by
  obtain ⟨hv1, hl1, hv2, hl2⟩ := stepOne_facts dataA dataA_mean
  have hstep0 : (stepN subOne dataA 0).lastContribution = 1 := rfl
  obtain ⟨m, hm1, hm2, hm3, hm4⟩ := runLoop_spec subOne dataA (3 / 5) 2
  have hm0 : m ≠ 0 := by
    intro h
    subst h
    have hc := hm4 (by omega)
    rw [hstep0] at hc
    norm_num at hc
  have hmne1 : m ≠ 1 := by
    intro h
    subst h
    have hc := hm4 (by omega)
    rw [hl1] at hc
    norm_num at hc
  have hmeq : m = 2 := by omega
  subst hmeq
  have hc := calculate_of_pos subOne dataA (3 / 5) 2 (by norm_num [dataA])
    2 hm2
  rw [if_neg (by omega)] at hc
  refine ⟨by rw [hl1]; norm_num, by rw [hl2]; norm_num, ?_⟩
  rw [hc, hl2, hv2]

/-- C1 amended: the loop stops at the first state whose contribution is
at or below the tolerance, or on hitting the cap; calculate succeeds with
the accumulated results exactly when the loop stopped after fewer than
maxIterations iterations, and otherwise (after all maxIterations
iterations, even when the tolerance was first met during the last one)
fails with the accuracy error carrying the iteration count, the
tolerance, the last contribution and the running price. -/
theorem jd_c1_exit_rule (sub : SubEngine) (d : Merton76Data)
    (relativeAccuracy : ℝ) (maxIterations : ℕ)
    (ht : 0 < d.timeToExercise) :
    ∃ m, m ≤ maxIterations ∧
      runLoop sub d relativeAccuracy maxIterations = stepN sub d m ∧
      (∀ j, j < m →
        relativeAccuracy < (stepN sub d j).lastContribution) ∧
      (m < maxIterations →
        (stepN sub d m).lastContribution ≤ relativeAccuracy ∧
        calculate sub relativeAccuracy maxIterations (.merton76 d) =
          .ok (stepN sub d m).results) ∧
      (m = maxIterations →
        calculate sub relativeAccuracy maxIterations (.merton76 d) =
          .error (.accuracyNotReached maxIterations relativeAccuracy
            (stepN sub d m).lastContribution
            (stepN sub d m).results.value)) := by
  obtain ⟨m, hm1, hm2, hm3, hm4⟩ := runLoop_spec sub d relativeAccuracy
    maxIterations
  have hc := calculate_of_pos sub d relativeAccuracy maxIterations ht m hm2
  refine ⟨m, hm1, hm2, hm3, ?_, ?_⟩
  · intro hlt
    refine ⟨hm4 hlt, ?_⟩
    rwa [if_pos hlt] at hc
  · intro heq
    subst heq
    rwa [if_neg (lt_irrefl m)] at hc

/-- Witness for the amended C1 at the counterexample configuration. -/
theorem jd_c1_exit_rule_witness :
    (0 : ℝ) < dataA.timeToExercise ∧
    (∃ m, m ≤ 2 ∧
      runLoop subOne dataA (3 / 5) 2 = stepN subOne dataA m ∧
      (∀ j, j < m →
        (3 / 5 : ℝ) < (stepN subOne dataA j).lastContribution) ∧
      (m < 2 →
        (stepN subOne dataA m).lastContribution ≤ 3 / 5 ∧
        calculate subOne (3 / 5) 2 (.merton76 dataA) =
          .ok (stepN subOne dataA m).results) ∧
      (m = 2 →
        calculate subOne (3 / 5) 2 (.merton76 dataA) =
          .error (.accuracyNotReached 2 (3 / 5)
            (stepN subOne dataA m).lastContribution
            (stepN subOne dataA m).results.value))) :=
  ⟨by norm_num [dataA],
    jd_c1_exit_rule subOne dataA (3 / 5) 2 (by norm_num [dataA])⟩

/-- Accumulators after one more iteration, unfolded. -/
lemma loopBody_results (sub : SubEngine) (d : Merton76Data)
    (st : LoopState) :
    (loopBody sub d st).results = addWeighted st.results
      (poissonPMF (lambda d * d.timeToExercise) st.iters)
      (sub (scenarioRate d st.iters) (scenarioVol d st.iters)) := rfl

/-- C5: the code has no numeric guards. With a negative variance reading
the square-root argument of scenario 0 is negative, yet calculate raises
no error and returns results (in C++ the NaN from QL_SQRT propagates
silently); and with a base engine reporting value 0 the contribution
ratio divides by the zero running price in iteration 0, yet calculate
raises no error and returns the zero results. -/
theorem jd_c5_no_numeric_guard :
    (dataB.varianceAtExercise + (0 : ℝ) * jumpSquareVol dataB) /
        dataB.timeToExercise < 0 ∧
    calculate subOne (3 / 5) 5 (.merton76 dataB) =
      .ok ((stepN subOne dataB 2).results) ∧
    (stepN subZero dataA 1).results.value = 0 ∧
    calculate subZero (1 / 2) 5 (.merton76 dataA) = .ok zeroGreeks := by
  obtain ⟨hv1, hl1, hv2, hl2⟩ := stepOne_facts dataB dataB_mean
  have hB0 : (stepN subOne dataB 0).lastContribution = 1 := rfl
  refine ⟨by norm_num [dataB, jumpSquareVol], ?_, ?_, ?_⟩
  · obtain ⟨m, hm1, hm2, hm3, hm4⟩ := runLoop_spec subOne dataB (3 / 5) 5
    have hm0 : m ≠ 0 := by
      intro h
      subst h
      have hc := hm4 (by omega)
      rw [hB0] at hc
      norm_num at hc
    have hmne1 : m ≠ 1 := by
      intro h
      subst h
      have hc := hm4 (by omega)
      rw [hl1] at hc
      norm_num at hc
    have hmle : m ≤ 2 := by
      by_contra hgt
      have hc := hm3 2 (by omega)
      rw [hl2] at hc
      norm_num at hc
    have hmeq : m = 2 := by omega
    subst hmeq
    have hc := calculate_of_pos subOne dataB (3 / 5) 5 (by norm_num [dataB])
      2 hm2
    rwa [if_pos (by omega)] at hc
  · rw [show stepN subZero dataA 1 = loopBody subZero dataA initState
      from rfl, loopBody_value]
    simp [initState, zeroGreeks, subZero]
  · have hres : (stepN subZero dataA 1).results = zeroGreeks := by
      rw [show stepN subZero dataA 1 = loopBody subZero dataA initState
        from rfl, loopBody_results]
      simp [initState, subZero, addWeighted_base_zero]
    have hlast : (stepN subZero dataA 1).lastContribution = 0 := by
      rw [show stepN subZero dataA 1 = loopBody subZero dataA initState
        from rfl, loopBody_last]
      simp [subZero, zeroGreeks]
    have hA0 : (stepN subZero dataA 0).lastContribution = 1 := rfl
    obtain ⟨m, hm1, hm2, hm3, hm4⟩ := runLoop_spec subZero dataA (1 / 2) 5
    have hm0 : m ≠ 0 := by
      intro h
      subst h
      have hc := hm4 (by omega)
      rw [hA0] at hc
      norm_num at hc
    have hmle : m ≤ 1 := by
      by_contra hgt
      have hc := hm3 1 (by omega)
      rw [hlast] at hc
      norm_num at hc
    have hmeq : m = 1 := by omega
    subst hmeq
    have hc := calculate_of_pos subZero dataA (1 / 2) 5 (by norm_num [dataA])
      1 hm2
    rw [if_pos (by omega), hres] at hc
    exact hc

/-- C4: with zero jump intensity the Poisson mean lambda*t is 0, the
weight of scenario 0 is 1 and every later weight is 0, and calculate
returns exactly the base-engine results for scenario 0, whose flat rate
is the base rate implied by the original discount factor and whose flat
volatility reproduces the original surface variance at the exercise
date (exact equality in the real-number model). -/
theorem jd_c4_degenerate_jump (sub : SubEngine) (d : Merton76Data)
    (relativeAccuracy : ℝ) (maxIterations : ℕ)
    (hint : d.jumpIntensity = 0) (ht : 0 < d.timeToExercise)
    (hacc0 : 0 ≤ relativeAccuracy) (hacc1 : relativeAccuracy < 1)
    (hmax : 3 ≤ maxIterations) :
    lambda d * d.timeToExercise = 0 ∧
    poissonPMF (lambda d * d.timeToExercise) 0 = 1 ∧
    (∀ i, 0 < i → poissonPMF (lambda d * d.timeToExercise) i = 0) ∧
    calculate sub relativeAccuracy maxIterations (.merton76 d) =
      .ok (sub (riskFreeRate d)
        (Real.sqrt (d.varianceAtExercise / d.timeToExercise))) := by
  have hm : lambda d * d.timeToExercise = 0 := by
    simp [lambda, hint]
  have hpmf0 : poissonPMF (lambda d * d.timeToExercise) 0 = 1 := by
    rw [hm]
    simp [poissonPMF]
  have hpmfpos : ∀ i, 0 < i →
      poissonPMF (lambda d * d.timeToExercise) i = 0 := by
    intro i hi
    rw [hm, poissonPMF, zero_pow (Nat.pos_iff_ne_zero.mp hi)]
    simp
  have hr0 : scenarioRate d 0 = riskFreeRate d := by
    simp [scenarioRate, hint]
  have hv0 : scenarioVol d 0 =
      Real.sqrt (d.varianceAtExercise / d.timeToExercise) := by
    simp [scenarioVol]
  have hs1 : stepN sub d 1 = loopBody sub d initState := rfl
  have hs1res : (stepN sub d 1).results = sub (riskFreeRate d)
      (Real.sqrt (d.varianceAtExercise / d.timeToExercise)) := by
    rw [hs1, loopBody_results]
    show addWeighted zeroGreeks (poissonPMF (lambda d * d.timeToExercise) 0)
      (sub (scenarioRate d 0) (scenarioVol d 0)) = _
    rw [hpmf0, hr0, hv0, addWeighted_one_zero]
  have hs0last : (stepN sub d 0).lastContribution = 1 := rfl
  have hs1last : (stepN sub d 1).lastContribution =
      (sub (riskFreeRate d)
        (Real.sqrt (d.varianceAtExercise / d.timeToExercise))).value /
      (sub (riskFreeRate d)
        (Real.sqrt (d.varianceAtExercise / d.timeToExercise))).value := by
    rw [hs1, loopBody_last]
    show poissonPMF (lambda d * d.timeToExercise) 0 *
        (sub (scenarioRate d 0) (scenarioVol d 0)).value /
      (zeroGreeks.value + poissonPMF (lambda d * d.timeToExercise) 0 *
        (sub (scenarioRate d 0) (scenarioVol d 0)).value) = _
    rw [hpmf0, hr0, hv0]
    simp [zeroGreeks]
  obtain ⟨m, hm1, hm2, hm3, hm4⟩ := runLoop_spec sub d relativeAccuracy
    maxIterations
  have hm0 : m ≠ 0 := by
    intro h
    subst h
    have hc := hm4 (by omega)
    rw [hs0last] at hc
    exact absurd (lt_of_lt_of_le hacc1 hc) (lt_irrefl _)
  by_cases hB : (sub (riskFreeRate d)
      (Real.sqrt (d.varianceAtExercise / d.timeToExercise))).value = 0
  · have hs1last0 : (stepN sub d 1).lastContribution = 0 := by
      rw [hs1last, hB, div_zero]
    have hmle : m ≤ 1 := by
      by_contra hgt
      have hc := hm3 1 (by omega)
      rw [hs1last0] at hc
      exact absurd (lt_of_le_of_lt hacc0 hc) (lt_irrefl _)
    have hmeq : m = 1 := by omega
    subst hmeq
    have hc := calculate_of_pos sub d relativeAccuracy maxIterations ht 1 hm2
    rw [if_pos (by omega), hs1res] at hc
    exact ⟨hm, hpmf0, hpmfpos, hc⟩
  · have hs1last1 : (stepN sub d 1).lastContribution = 1 := by
      rw [hs1last, div_self hB]
    have hs2 : stepN sub d 2 = loopBody sub d (stepN sub d 1) := rfl
    have hs2res : (stepN sub d 2).results = sub (riskFreeRate d)
        (Real.sqrt (d.varianceAtExercise / d.timeToExercise)) := by
      rw [hs2, loopBody_results, stepN_iters, hpmfpos 1 Nat.one_pos,
        addWeighted_weight_zero, hs1res]
    have hs2last : (stepN sub d 2).lastContribution = 0 := by
      rw [hs2, loopBody_last, stepN_iters, hpmfpos 1 Nat.one_pos]
      simp
    have hmne1 : m ≠ 1 := by
      intro h
      subst h
      have hc := hm4 (by omega)
      rw [hs1last1] at hc
      exact absurd (lt_of_lt_of_le hacc1 hc) (lt_irrefl _)
    have hmle : m ≤ 2 := by
      by_contra hgt
      have hc := hm3 2 (by omega)
      rw [hs2last] at hc
      exact absurd (lt_of_le_of_lt hacc0 hc) (lt_irrefl _)
    have hmeq : m = 2 := by omega
    subst hmeq
    have hc := calculate_of_pos sub d relativeAccuracy maxIterations ht 2 hm2
    rw [if_pos (by omega), hs2res] at hc
    exact ⟨hm, hpmf0, hpmfpos, hc⟩

/-- Witness for C4 at concrete zero-intensity readings. -/
theorem jd_c4_degenerate_jump_witness :
    dataC.jumpIntensity = 0 ∧ (0 : ℝ) < dataC.timeToExercise ∧
    (0 : ℝ) ≤ 1 / 2 ∧ (1 / 2 : ℝ) < 1 ∧ 3 ≤ 3 ∧
    (lambda dataC * dataC.timeToExercise = 0 ∧
      poissonPMF (lambda dataC * dataC.timeToExercise) 0 = 1 ∧
      (∀ i, 0 < i →
        poissonPMF (lambda dataC * dataC.timeToExercise) i = 0) ∧
      calculate subOne (1 / 2) 3 (.merton76 dataC) =
        .ok (subOne (riskFreeRate dataC)
          (Real.sqrt (dataC.varianceAtExercise / dataC.timeToExercise)))) :=
  ⟨rfl, by norm_num [dataC], by norm_num, by norm_num, le_refl 3,
    jd_c4_degenerate_jump subOne dataC (1 / 2) 3 rfl (by norm_num [dataC])
      (by norm_num) (by norm_num) (le_refl 3)⟩

/-- The Poisson mean lambda * t is non-negative for a non-negative
intensity and a non-negative time to exercise. -/
lemma mean_nonneg (d : Merton76Data) (hint : 0 ≤ d.jumpIntensity)
    (ht : 0 ≤ d.timeToExercise) : 0 ≤ lambda d * d.timeToExercise := by
  have hk : k d + 1 = Real.exp (muPlusHalfSquareVol d) := by
    simp [k]
  have hl : 0 ≤ lambda d := by
    rw [lambda, hk]
    exact mul_nonneg (Real.exp_pos _).le hint
  exact mul_nonneg hl ht

/-- C2: after each iteration count n, every accumulated field is the sum
over j < n of the Poisson weight of j times the corresponding base-engine
output for scenario j; the weights are non-negative, their running sum is
at most 1, and the state the loop actually ends in is one of these
weighted-sum states. -/
theorem jd_c2_weighted_accumulation (sub : SubEngine) (d : Merton76Data)
    (relativeAccuracy : ℝ) (maxIterations : ℕ) (n : ℕ)
    (hint : 0 ≤ d.jumpIntensity) (ht : 0 ≤ d.timeToExercise) :
    ((stepN sub d n).results.value = ∑ j ∈ Finset.range n,
        poissonPMF (lambda d * d.timeToExercise) j *
          (sub (scenarioRate d j) (scenarioVol d j)).value ∧
      (stepN sub d n).results.delta = ∑ j ∈ Finset.range n,
        poissonPMF (lambda d * d.timeToExercise) j *
          (sub (scenarioRate d j) (scenarioVol d j)).delta ∧
      (stepN sub d n).results.gamma = ∑ j ∈ Finset.range n,
        poissonPMF (lambda d * d.timeToExercise) j *
          (sub (scenarioRate d j) (scenarioVol d j)).gamma ∧
      (stepN sub d n).results.theta = ∑ j ∈ Finset.range n,
        poissonPMF (lambda d * d.timeToExercise) j *
          (sub (scenarioRate d j) (scenarioVol d j)).theta ∧
      (stepN sub d n).results.vega = ∑ j ∈ Finset.range n,
        poissonPMF (lambda d * d.timeToExercise) j *
          (sub (scenarioRate d j) (scenarioVol d j)).vega ∧
      (stepN sub d n).results.rho = ∑ j ∈ Finset.range n,
        poissonPMF (lambda d * d.timeToExercise) j *
          (sub (scenarioRate d j) (scenarioVol d j)).rho ∧
      (stepN sub d n).results.dividendRho = ∑ j ∈ Finset.range n,
        poissonPMF (lambda d * d.timeToExercise) j *
          (sub (scenarioRate d j) (scenarioVol d j)).dividendRho) ∧
    (∀ j, 0 ≤ poissonPMF (lambda d * d.timeToExercise) j) ∧
    (∑ j ∈ Finset.range n,
      poissonPMF (lambda d * d.timeToExercise) j ≤ 1) ∧
    runLoop sub d relativeAccuracy maxIterations =
      stepN sub d (runLoop sub d relativeAccuracy maxIterations).iters := by
  have hm := mean_nonneg d hint ht
  refine ⟨⟨?_, ?_, ?_, ?_, ?_, ?_, ?_⟩, ?_, ?_, ?_⟩
  · exact stepN_field Greeks.value (fun a w b => rfl) rfl sub d n
  · exact stepN_field Greeks.delta (fun a w b => rfl) rfl sub d n
  · exact stepN_field Greeks.gamma (fun a w b => rfl) rfl sub d n
  · exact stepN_field Greeks.theta (fun a w b => rfl) rfl sub d n
  · exact stepN_field Greeks.vega (fun a w b => rfl) rfl sub d n
  · exact stepN_field Greeks.rho (fun a w b => rfl) rfl sub d n
  · exact stepN_field Greeks.dividendRho (fun a w b => rfl) rfl sub d n
  · intro j
    exact div_nonneg (mul_nonneg (Real.exp_pos _).le (pow_nonneg hm j))
      (Nat.cast_nonneg _)
  · calc ∑ j ∈ Finset.range n, poissonPMF (lambda d * d.timeToExercise) j
        = Real.exp (-(lambda d * d.timeToExercise)) *
          ∑ j ∈ Finset.range n,
            (lambda d * d.timeToExercise) ^ j / (Nat.factorial j : ℝ) := by
          rw [Finset.mul_sum]
          exact Finset.sum_congr rfl fun j _ => by
            rw [poissonPMF, mul_div_assoc]
      _ ≤ Real.exp (-(lambda d * d.timeToExercise)) *
          Real.exp (lambda d * d.timeToExercise) :=
          mul_le_mul_of_nonneg_left (Real.sum_le_exp_of_nonneg hm n)
            (Real.exp_pos _).le
      _ = 1 := by
          rw [← Real.exp_add]
          simp
  · obtain ⟨m, -, hm2, -, -⟩ := runLoop_spec sub d relativeAccuracy
      maxIterations
    rw [hm2, stepN_iters]

/-- Witness for C2 at the concrete configuration, after two iterations. -/
theorem jd_c2_weighted_accumulation_witness :
    (0 : ℝ) ≤ dataA.jumpIntensity ∧ (0 : ℝ) ≤ dataA.timeToExercise ∧
    (((stepN subOne dataA 2).results.value = ∑ j ∈ Finset.range 2,
        poissonPMF (lambda dataA * dataA.timeToExercise) j *
          (subOne (scenarioRate dataA j) (scenarioVol dataA j)).value ∧
      (stepN subOne dataA 2).results.delta = ∑ j ∈ Finset.range 2,
        poissonPMF (lambda dataA * dataA.timeToExercise) j *
          (subOne (scenarioRate dataA j) (scenarioVol dataA j)).delta ∧
      (stepN subOne dataA 2).results.gamma = ∑ j ∈ Finset.range 2,
        poissonPMF (lambda dataA * dataA.timeToExercise) j *
          (subOne (scenarioRate dataA j) (scenarioVol dataA j)).gamma ∧
      (stepN subOne dataA 2).results.theta = ∑ j ∈ Finset.range 2,
        poissonPMF (lambda dataA * dataA.timeToExercise) j *
          (subOne (scenarioRate dataA j) (scenarioVol dataA j)).theta ∧
      (stepN subOne dataA 2).results.vega = ∑ j ∈ Finset.range 2,
        poissonPMF (lambda dataA * dataA.timeToExercise) j *
          (subOne (scenarioRate dataA j) (scenarioVol dataA j)).vega ∧
      (stepN subOne dataA 2).results.rho = ∑ j ∈ Finset.range 2,
        poissonPMF (lambda dataA * dataA.timeToExercise) j *
          (subOne (scenarioRate dataA j) (scenarioVol dataA j)).rho ∧
      (stepN subOne dataA 2).results.dividendRho = ∑ j ∈ Finset.range 2,
        poissonPMF (lambda dataA * dataA.timeToExercise) j *
          (subOne (scenarioRate dataA j) (scenarioVol dataA j)).dividendRho) ∧
    (∀ j, 0 ≤ poissonPMF (lambda dataA * dataA.timeToExercise) j) ∧
    (∑ j ∈ Finset.range 2,
      poissonPMF (lambda dataA * dataA.timeToExercise) j ≤ 1) ∧
    runLoop subOne dataA (3 / 5) 2 =
      stepN subOne dataA (runLoop subOne dataA (3 / 5) 2).iters) :=
  ⟨by norm_num [dataA], by norm_num [dataA],
    jd_c2_weighted_accumulation subOne dataA (3 / 5) 2 2
      (by norm_num [dataA]) (by norm_num [dataA])⟩

/-- C3: the once-computed scalars satisfy the stated closed forms, and
every (rate, volatility) pair handed to the base engine over the whole
run matches the stated per-iteration formulas
r_i = r0 - jumpIntensity*k + i*muPlusHalfSquareVol/t and
v_i = sqrt((variance + i*jumpSquareVol)/t), written out from the claim. -/
theorem jd_c3_scenario_formulas (sub : SubEngine) (d : Merton76Data)
    (relativeAccuracy : ℝ) (maxIterations : ℕ) :
    jumpSquareVol d = d.logJumpVolatility ^ 2 ∧
    muPlusHalfSquareVol d = d.logJumpMean +
      0.5 * d.logJumpVolatility ^ 2 ∧
    k d = Real.exp (d.logJumpMean + 0.5 * d.logJumpVolatility ^ 2) - 1 ∧
    lambda d = (Real.exp (d.logJumpMean + 0.5 * d.logJumpVolatility ^ 2) -
      1 + 1) * d.jumpIntensity ∧
    riskFreeRate d = -Real.log d.discountAtExercise / d.timeToExercise ∧
    (runLoop sub d relativeAccuracy maxIterations).trace =
      (List.range (runLoop sub d relativeAccuracy maxIterations).iters).map
        (fun (i : ℕ) =>
          (-Real.log d.discountAtExercise / d.timeToExercise -
              d.jumpIntensity *
                (Real.exp (d.logJumpMean +
                  0.5 * d.logJumpVolatility ^ 2) - 1) +
              (i : ℝ) * (d.logJumpMean + 0.5 * d.logJumpVolatility ^ 2) /
                d.timeToExercise,
            Real.sqrt ((d.varianceAtExercise +
              (i : ℝ) * d.logJumpVolatility ^ 2) / d.timeToExercise))) := by
  have hsq : jumpSquareVol d = d.logJumpVolatility ^ 2 := by
    rw [jumpSquareVol, pow_two]
  have hmu : muPlusHalfSquareVol d = d.logJumpMean +
      0.5 * d.logJumpVolatility ^ 2 := by
    rw [muPlusHalfSquareVol, hsq]
  have hk : k d = Real.exp (d.logJumpMean +
      0.5 * d.logJumpVolatility ^ 2) - 1 := by
    rw [k, hmu]
  refine ⟨hsq, hmu, hk, by rw [lambda, hk], rfl, ?_⟩
  obtain ⟨m, -, hm2, -, -⟩ := runLoop_spec sub d relativeAccuracy
    maxIterations
  rw [hm2, stepN_iters, stepN_trace]
  refine List.map_congr_left fun i _ => ?_
  rw [Prod.mk.injEq]
  constructor
  · rw [scenarioRate, riskFreeRate, hk, hmu]
  · rw [scenarioVol, hsq]

end QuantLibJD
